import Mathlib

/-!
Verification of the playlist-processing core of the repository
(playlist_grabber.py, modules/orchestrator.py, modules/orchestrator_async.py,
modules/url_resolver.py, modules/output_formatter.py).

The pure control flow of the Python source is embedded shallowly:
external effects (the yt-dlp extraction call, the output-file write, the
playlist fetch) are passed in as explicit `Except`/function parameters, and
`time.sleep` calls are recorded as a trace of slept durations (rationals,
in seconds).
-/

set_option maxRecDepth 8000

namespace PlaylistGrabber

/-- One playlist entry, as produced by `get_playlist_videos`
(modules/playlist_fetcher.py): the orchestrators read exactly the
fields `id` and `title` of each entry. -/
structure Video where
  id : String
  title : String
  deriving DecidableEq, Repr

/-- One element of the `requested_formats` list inside a yt-dlp info
dictionary; `url` is absent (`none`) when the dict has no such key. -/
structure FormatItem where
  url : Option String
  deriving DecidableEq, Repr

/-- The fields of the yt-dlp info dictionary that
`get_direct_url` (modules/url_resolver.py lines 43-73) reads.
`none` models an absent key; `requested_formats = some []` models the key
being present with an empty list. -/
structure VideoInfo where
  url : Option String
  requested_formats : Option (List FormatItem)
  width : Option Nat
  height : Option Nat
  filesize : Option Nat
  filesize_approx : Option Nat
  ext : Option String
  format_note : Option String
  vcodec : Option String
  acodec : Option String
  deriving DecidableEq, Repr

/-- The `format_info` dictionary built by `get_direct_url`
(url_resolver.py lines 64-71). -/
structure FormatInfo where
  resolution : String
  filesize : Nat
  ext : String
  format_note : String
  vcodec : String
  acodec : String
  deriving DecidableEq, Repr

/-- Python truthiness of an optional string: `None` and the empty string
are falsy.  This is the test `if direct_url:` used by both orchestrators
and by `get_direct_url` itself. -/
def truthy : Option String → Bool
  | none => false
  | some s => s ≠ ""

/-- Python `a or b` on an optional number versus a default:
`info.get('filesize') or info.get('filesize_approx', 0)`
(url_resolver.py line 66); `None` and `0` are falsy. -/
def pyOr (a : Option Nat) (b : Nat) : Nat :=
  match a with
  | some n => if n = 0 then b else n
  | none => b

/-- The `format_info` construction of url_resolver.py lines 64-71. -/
def mkFormatInfo (info : VideoInfo) : FormatInfo :=
  { resolution := ((info.width.map toString).getD ("N/A")) ++ ("x")
      ++ ((info.height.map toString).getD ("N/A"))
    filesize := pyOr info.filesize (info.filesize_approx.getD 0)
    ext := info.ext.getD ("mp4")
    format_note := info.format_note.getD ("unknown")
    vcodec := info.vcodec.getD ("unknown")
    acodec := info.acodec.getD ("unknown") }

/-- `get_direct_url` (url_resolver.py lines 43-77).  The outcome of the
`ydl.extract_info` call is the parameter: `.error` models the call raising
any exception (caught by the `except Exception` at line 75), `.ok none`
models it returning a falsy info object, `.ok (some info)` a dictionary.
The `info['requested_formats'][0]` subscript on an empty list raises an
`IndexError`, which the same `except` turns into `(none, none)`. -/
def get_direct_url (extract : Except String (Option VideoInfo)) :
    Option String × Option FormatInfo :=
  match extract with
  | .error _ => (none, none)
  | .ok none => (none, none)
  | .ok (some info) =>
    if truthy info.url = false then
      match info.requested_formats with
      | some [] => (none, none)
      | some (f :: _) => (f.url, some (mkFormatInfo info))
      | none => (info.url, some (mkFormatInfo info))
    else
      (info.url, some (mkFormatInfo info))

/-- Trace of one run of the per-item retry loop: the final
`(direct_url, format_info)` pair, the number of `get_direct_url` calls
made, and the list of sleep durations (seconds) in order. -/
structure RetryTrace where
  result : Option String × Option FormatInfo
  calls : Nat
  sleeps : List ℚ
  deriving DecidableEq, Repr

/-- The retry loop `for attempt in range(max_retries): ...`
(orchestrator.py lines 107-114 and orchestrator_async.py lines 39-46),
parametrised by the outcome `res attempt` of each `get_direct_url` call
and by the backoff slept between attempts.  `attempt` is the current
0-based loop index; the second argument is the number of attempts left. -/
def retryGo (res : Nat → Option String × Option FormatInfo) (backoff : ℚ) :
    Nat → Nat → RetryTrace
  | _, 0 => ⟨(none, none), 0, []⟩
  | attempt, remaining + 1 =>
    if truthy (res attempt).1 then ⟨res attempt, 1, []⟩
    else if remaining = 0 then ⟨res attempt, 1, []⟩
    else ⟨(retryGo res backoff (attempt + 1) remaining).result,
          (retryGo res backoff (attempt + 1) remaining).calls + 1,
          backoff :: (retryGo res backoff (attempt + 1) remaining).sleeps⟩

/-- The whole retry loop, starting at attempt 0 with `max_retries`
attempts available. -/
def retryLoop (res : Nat → Option String × Option FormatInfo) (backoff : ℚ)
    (max_retries : Nat) : RetryTrace :=
  retryGo res backoff 0 max_retries

/-- The sequential orchestrator's retry backoff:
`time.sleep(delay * 0.5)` (orchestrator.py line 114). -/
def seqRetryBackoff (delay : ℚ) : ℚ := delay * (1 / 2)

/-- The async orchestrator's retry backoff: `time.sleep(0.5)`
(orchestrator_async.py line 46); a constant, independent of `delay`. -/
def asyncRetryBackoff : ℚ := 1 / 2

/-- The retry loop as run by the sequential orchestrator. -/
def seqRetry (res : Nat → Option String × Option FormatInfo) (delay : ℚ)
    (max_retries : Nat) : RetryTrace :=
  retryLoop res (seqRetryBackoff delay) max_retries

/-- The retry loop as run by `_resolve_video_url` in the async
orchestrator. -/
def asyncRetry (res : Nat → Option String × Option FormatInfo)
    (max_retries : Nat) : RetryTrace :=
  retryLoop res asyncRetryBackoff max_retries

/-- Whether one video resolves successfully in the sequential
orchestrator, for a resolver that is deterministic per video id
(every attempt returns `resolver v.id`): the test `if direct_url:`
at orchestrator.py line 116. -/
def seqOk (resolver : String → Option String × Option FormatInfo)
    (delay : ℚ) (max_retries : Nat) (v : Video) : Bool :=
  truthy ((seqRetry (fun _ => resolver v.id) delay max_retries).result).1

/-- Whether one video resolves successfully in `_resolve_video_url`
(orchestrator_async.py line 48), for a deterministic resolver. -/
def asyncOk (resolver : String → Option String × Option FormatInfo)
    (max_retries : Nat) (v : Video) : Bool :=
  truthy ((asyncRetry (fun _ => resolver v.id) max_retries).result).1

/-- The returned dictionary of both `process_playlist` variants
(orchestrator.py lines 45-52, orchestrator_async.py lines 94-101). -/
structure RunResult where
  success : Bool
  output_file : Option String
  total_videos : Nat
  successful : Nat
  failed : Nat
  errors : List String
  deriving DecidableEq, Repr

/-- The per-video aggregation loop shared by both orchestrators: returns
(the videos appended to `video_data`, the titles appended to
`failed_videos`), both in processing order; `result['successful']` and
`result['failed']` are the lengths of these two lists, which grow in
lockstep with them (orchestrator.py lines 116-130,
orchestrator_async.py lines 159-169). -/
def runLoop (ok : Video → Bool) : List Video → List Video × List String
  | [] => ([], [])
  | v :: rest =>
    if ok v then (v :: (runLoop ok rest).1, (runLoop ok rest).2)
    else ((runLoop ok rest).1, v.title :: (runLoop ok rest).2)

/-- Whether the `write_to_file` call succeeded (`.ok` carries the returned
url count; `.error` the exception text caught at orchestrator.py line 158 /
orchestrator_async.py line 193). -/
def writeSucceeds (w : Except String Nat) : Bool :=
  match w with
  | .ok _ => true
  | .error _ => false

/-- `process_playlist` of modules/orchestrator.py (sequential mode).
`fetch` is the joint outcome of `get_playlist_title` and
`get_playlist_videos` (lines 60-72); `resolver` gives the deterministic
outcome of `get_direct_url` per video id; `output_path`/`genName` model
the optional `-o` argument and the generated filename;
`writeResult` the outcome of `write_to_file`.  The inter-video rate
delay `time.sleep(delay)` (line 136) only spends time and does not
affect the returned dictionary, so it is not part of the result. -/
def process_playlist_seq (fetch : Except String (String × List Video))
    (resolver : String → Option String × Option FormatInfo)
    (delay : ℚ) (max_retries : Nat)
    (output_path : Option String) (genName : String)
    (writeResult : Except String Nat) : RunResult :=
  match fetch with
  | .error e =>
    { success := false, output_file := none, total_videos := 0,
      successful := 0, failed := 0,
      errors := [("Failed to fetch playlist: ") ++ e] }
  | .ok (_playlist_title, videos) =>
    if videos = [] then
      { success := false, output_file := none, total_videos := videos.length,
        successful := 0, failed := 0,
        errors := [("No videos found in playlist")] }
    else if (runLoop (seqOk resolver delay max_retries) videos).1 = [] then
      { success := false, output_file := none, total_videos := videos.length,
        successful := (runLoop (seqOk resolver delay max_retries) videos).1.length,
        failed := (runLoop (seqOk resolver delay max_retries) videos).2.length,
        errors := [("No URLs were successfully resolved")] }
    else
      match writeResult with
      | .ok _ =>
        { success := true, output_file := some (output_path.getD genName),
          total_videos := videos.length,
          successful := (runLoop (seqOk resolver delay max_retries) videos).1.length,
          failed := (runLoop (seqOk resolver delay max_retries) videos).2.length,
          errors := [] }
      | .error e =>
        { success := false, output_file := none, total_videos := videos.length,
          successful := (runLoop (seqOk resolver delay max_retries) videos).1.length,
          failed := (runLoop (seqOk resolver delay max_retries) videos).2.length,
          errors := [("Failed to write output file: ") ++ e] }

/-- `process_playlist` of modules/orchestrator_async.py (bounded /
concurrent mode).  The thread pool completes the per-video futures in a
nondeterministic order; `order` is that completion order (a permutation of
the fetched `videos`), over which the `as_completed` aggregation loop
(lines 156-171) runs.  The `delay` parameter exists in the source
signature but is unused by the async resolution path. -/
def process_playlist_async (fetch : Except String (String × List Video))
    (order : List Video)
    (resolver : String → Option String × Option FormatInfo)
    (_delay : ℚ) (max_retries : Nat)
    (output_path : Option String) (genName : String)
    (writeResult : Except String Nat) : RunResult :=
  match fetch with
  | .error e =>
    { success := false, output_file := none, total_videos := 0,
      successful := 0, failed := 0,
      errors := [("Failed to fetch playlist: ") ++ e] }
  | .ok (_playlist_title, videos) =>
    if videos = [] then
      { success := false, output_file := none, total_videos := videos.length,
        successful := 0, failed := 0,
        errors := [("No videos found in playlist")] }
    else if (runLoop (asyncOk resolver max_retries) order).1 = [] then
      { success := false, output_file := none, total_videos := videos.length,
        successful := (runLoop (asyncOk resolver max_retries) order).1.length,
        failed := (runLoop (asyncOk resolver max_retries) order).2.length,
        errors := [("No URLs were successfully resolved")] }
    else
      match writeResult with
      | .ok _ =>
        { success := true, output_file := some (output_path.getD genName),
          total_videos := videos.length,
          successful := (runLoop (asyncOk resolver max_retries) order).1.length,
          failed := (runLoop (asyncOk resolver max_retries) order).2.length,
          errors := [] }
      | .error e =>
        { success := false, output_file := none, total_videos := videos.length,
          successful := (runLoop (asyncOk resolver max_retries) order).1.length,
          failed := (runLoop (asyncOk resolver max_retries) order).2.length,
          errors := [("Failed to write output file: ") ++ e] }

/-- Total number of `get_direct_url` invocations made by the sequential
`process_playlist`: the resolution loop runs only after the fetch
succeeded and the emptiness check passed, and each fetched video then
contributes the calls of its own retry loop (the sum over the empty list
is 0, matching the early return at orchestrator.py lines 74-78). -/
def process_playlist_seq_calls (fetch : Except String (String × List Video))
    (resolver : String → Option String × Option FormatInfo)
    (delay : ℚ) (max_retries : Nat) : Nat :=
  match fetch with
  | .error _ => 0
  | .ok (_playlist_title, videos) =>
    (videos.map (fun v => (seqRetry (fun _ => resolver v.id) delay max_retries).calls)).sum

/-- Total number of `get_direct_url` invocations made by the async
`process_playlist`: one `_resolve_video_url` future per fetched video,
regardless of completion order (orchestrator_async.py lines 150-153). -/
def process_playlist_async_calls (fetch : Except String (String × List Video))
    (resolver : String → Option String × Option FormatInfo)
    (max_retries : Nat) : Nat :=
  match fetch with
  | .error _ => 0
  | .ok (_playlist_title, videos) =>
    (videos.map (fun v => (asyncRetry (fun _ => resolver v.id) max_retries).calls)).sum

/-- Ids of the videos appended to `video_data` by the sequential
orchestrator (the successfully resolved videos, in input order). -/
def seqSuccessIds (resolver : String → Option String × Option FormatInfo)
    (delay : ℚ) (max_retries : Nat) (videos : List Video) : List String :=
  ((runLoop (seqOk resolver delay max_retries) videos).1).map Video.id

/-- Ids of the videos appended to `video_data` by the async orchestrator,
when the futures complete in the order `order`. -/
def asyncSuccessIds (resolver : String → Option String × Option FormatInfo)
    (max_retries : Nat) (order : List Video) : List String :=
  ((runLoop (asyncOk resolver max_retries) order).1).map Video.id

/-- The characters removed by `sanitize_filename`
(output_formatter.py line 93). -/
def invalid_chars : List Char := ['<', '>', ':', '\"', '/', '\\', '|', '?', '*']

/-- One character of the `filename.replace(char, '_')` loop
(output_formatter.py lines 94-95). -/
def replaceInvalid (c : Char) : Char :=
  if invalid_chars.contains c then '_' else c

/-- The character class stripped by `filename.strip('. ')`
(output_formatter.py line 98). -/
def stripDotSpace (c : Char) : Bool := c == '.' || c == ' '

/-- The state of `filename` just after the `strip('. ')` at
output_formatter.py line 98: invalid characters replaced, then leading and
trailing dots/spaces removed. -/
def sanitizeStripped (filename : List Char) : List Char :=
  (((filename.map replaceInvalid).dropWhile stripDotSpace).reverse.dropWhile
      stripDotSpace).reverse

/-- The state of `filename` after the length limit
`if len(filename) > 200: filename = filename[:200]`
(output_formatter.py lines 101-102). -/
def sanitizeLimited (filename : List Char) : List Char :=
  if 200 < (sanitizeStripped filename).length then
    (sanitizeStripped filename).take 200
  else sanitizeStripped filename

/-- `sanitize_filename` (output_formatter.py lines 82-104), over the
character list of the input string; `return filename or "output"`
replaces an empty result with the fallback. -/
def sanitize_filename (filename : List Char) : List Char :=
  if sanitizeLimited filename = [] then ("output").toList
  else sanitizeLimited filename

/-- Modelled from the spec: the Worker Pool (spec section 4.3), realized in
the source by `ThreadPoolExecutor(max_workers=max_workers)`
(orchestrator_async.py line 148), whose implementation lives in the Python
standard library and not in this repository.  A state counts the submitted
items not yet started, the items currently executing, and the completed
items. -/
structure PoolState where
  pending : Nat
  inFlight : Nat
  completed : Nat
  deriving DecidableEq, Repr

/-- Modelled from the spec: one scheduling transition of the worker pool.
An item may start only while fewer than `workerCount` items are in flight
(the pool's hard ceiling); any in-flight item may finish. -/
inductive PoolStep (workerCount : Nat) : PoolState → PoolState → Prop
  | start (s : PoolState) (hp : 0 < s.pending) (hw : s.inFlight < workerCount) :
      PoolStep workerCount s ⟨s.pending - 1, s.inFlight + 1, s.completed⟩
  | finish (s : PoolState) (hf : 0 < s.inFlight) :
      PoolStep workerCount s ⟨s.pending, s.inFlight - 1, s.completed + 1⟩

/-- Modelled from the spec: the pool states reachable from the initial
state in which all `n` submitted items are pending and none has
started. -/
inductive PoolReachable (workerCount n : Nat) : PoolState → Prop
  | init : PoolReachable workerCount n ⟨n, 0, 0⟩
  | step {s t : PoolState} : PoolReachable workerCount n s →
      PoolStep workerCount s t → PoolReachable workerCount n t

/-- Worker-count validation of the CLI entry point
(playlist_grabber.py lines 123-130): a value below 1 aborts before any
processing (`sys.exit(1)`, modelled as `none`); a value above 20 is
silently replaced by 20; anything else is kept. -/
def validate_workers (workers : Int) : Option Int :=
  if workers < 1 then none
  else if 20 < workers then some 20
  else some workers

lemma retryGo_calls_le (res : Nat → Option String × Option FormatInfo)
    (b : ℚ) : ∀ r a, (retryGo res b a r).calls ≤ r := by
  intro r
  induction r with
  | zero => intro a; simp [retryGo]
  | succ n ih =>
    intro a
    simp only [retryGo]
    split
    · simp
    · split
      · simp
      · simpa using Nat.succ_le_succ (ih (a + 1))

lemma retryGo_calls_pos (res : Nat → Option String × Option FormatInfo)
    (b : ℚ) : ∀ r a, 1 ≤ r → 1 ≤ (retryGo res b a r).calls := by
  intro r
  induction r with
  | zero => intro a h; omega
  | succ n _ =>
    intro a _
    simp only [retryGo]
    split
    · simp
    · split
      · simp
      · simp

lemma retryGo_sleeps_replicate (res : Nat → Option String × Option FormatInfo)
    (b : ℚ) : ∀ r a,
    (retryGo res b a r).sleeps
      = List.replicate ((retryGo res b a r).calls - 1) b := by
  intro r
  induction r with
  | zero => intro a; simp [retryGo]
  | succ n ih =>
    intro a
    simp only [retryGo]
    split
    · simp
    · split
      · simp
      · rename_i h1 h2
        have hpos : 1 ≤ (retryGo res b (a + 1) n).calls :=
          retryGo_calls_pos res b n (a + 1) (by omega)
        simp only [ih (a + 1), Nat.add_sub_cancel]
        have : (retryGo res b (a + 1) n).calls
            = ((retryGo res b (a + 1) n).calls - 1) + 1 := by omega
        rw [this, List.replicate_succ]
        simp

lemma retryGo_result_backoff (res : Nat → Option String × Option FormatInfo)
    (b b' : ℚ) : ∀ r a,
    (retryGo res b a r).result = (retryGo res b' a r).result := by
  intro r
  induction r with
  | zero => intro a; simp [retryGo]
  | succ n ih =>
    intro a
    simp only [retryGo]
    split
    · simp
    · split
      · simp
      · simpa using ih (a + 1)

lemma retryGo_calls_backoff (res : Nat → Option String × Option FormatInfo)
    (b b' : ℚ) : ∀ r a,
    (retryGo res b a r).calls = (retryGo res b' a r).calls := by
  intro r
  induction r with
  | zero => intro a; simp [retryGo]
  | succ n ih =>
    intro a
    simp only [retryGo]
    split
    · simp
    · split
      · simp
      · simpa using ih (a + 1)

lemma retryGo_first_success (res : Nat → Option String × Option FormatInfo)
    (b : ℚ) : ∀ r a k, k < r → truthy (res (a + k)).1 = true →
    (∀ j, j < k → truthy (res (a + j)).1 = false) →
    (retryGo res b a r).calls = k + 1 ∧
      (retryGo res b a r).result = res (a + k) := by
  intro r
  induction r with
  | zero => intro a k hk; omega
  | succ n ih =>
    intro a k hk hsucc hfail
    match k with
    | 0 =>
      simp only [Nat.add_zero] at hsucc
      simp [retryGo, hsucc]
    | k' + 1 =>
      have h0 : truthy (res a).1 = false := by
        have := hfail 0 (by omega)
        simpa using this
      have hn : n ≠ 0 := by omega
      simp only [retryGo, h0, Bool.false_eq_true, if_false, hn, ite_false]
      have ihres := ih (a + 1) k' (by omega)
        (by rw [show a + 1 + k' = a + (k' + 1) by omega]; exact hsucc)
        (fun j hj => by
          rw [show a + 1 + j = a + (j + 1) by omega]
          exact hfail (j + 1) (by omega))
      refine ⟨by simp [ihres.1], ?_⟩
      rw [show a + (k' + 1) = a + 1 + k' by omega]
      simpa using ihres.2

lemma retryGo_exhaust (res : Nat → Option String × Option FormatInfo)
    (b : ℚ) : ∀ r a, (∀ j, j < r → truthy (res (a + j)).1 = false) →
    (retryGo res b a r).calls = r ∧
      truthy ((retryGo res b a r).result).1 = false := by
  intro r
  induction r with
  | zero => intro a _; simp [retryGo, truthy]
  | succ n ih =>
    intro a hfail
    have h0 : truthy (res a).1 = false := by
      have := hfail 0 (by omega)
      simpa using this
    by_cases hn : n = 0
    · subst hn
      simp [retryGo, h0]
    · simp only [retryGo, h0, Bool.false_eq_true, if_false, hn, ite_false]
      have ihres := ih (a + 1) (fun j hj => by
        rw [show a + 1 + j = a + (j + 1) by omega]
        exact hfail (j + 1) (by omega))
      exact ⟨by simp [ihres.1], by simpa using ihres.2⟩

lemma asyncOk_eq_seqOk (resolver : String → Option String × Option FormatInfo)
    (delay : ℚ) (m : Nat) (v : Video) :
    asyncOk resolver m v = seqOk resolver delay m v := by
  simp only [asyncOk, seqOk, asyncRetry, seqRetry, retryLoop]
  rw [retryGo_result_backoff (fun _ => resolver v.id) asyncRetryBackoff
    (seqRetryBackoff delay) m 0]

lemma runLoop_fst (ok : Video → Bool) :
    ∀ l : List Video, (runLoop ok l).1 = l.filter ok := by
  intro l
  induction l with
  | nil => simp [runLoop]
  | cons v rest ih =>
    by_cases h : ok v
    · simp [runLoop, h, List.filter_cons, ih]
    · simp [runLoop, h, List.filter_cons, ih]

lemma runLoop_len (ok : Video → Bool) :
    ∀ l : List Video,
      (runLoop ok l).1.length + (runLoop ok l).2.length = l.length := by
  intro l
  induction l with
  | nil => simp [runLoop]
  | cons v rest ih =>
    by_cases h : ok v
    · simp only [runLoop, h, ite_true, List.length_cons]
      omega
    · simp only [runLoop, h, Bool.false_eq_true, ite_false, List.length_cons]
      omega

lemma seq_fields (t : String) (videos : List Video)
    (resolver : String → Option String × Option FormatInfo)
    (delay : ℚ) (m : Nat) (op : Option String) (gn : String)
    (wr : Except String Nat) (hne : videos ≠ []) :
    (process_playlist_seq (.ok (t, videos)) resolver delay m op gn wr).total_videos
        = videos.length ∧
    (process_playlist_seq (.ok (t, videos)) resolver delay m op gn wr).successful
        = (runLoop (seqOk resolver delay m) videos).1.length ∧
    (process_playlist_seq (.ok (t, videos)) resolver delay m op gn wr).failed
        = (runLoop (seqOk resolver delay m) videos).2.length := by
  simp only [process_playlist_seq]
  rw [if_neg hne]
  split
  · rename_i h
    simp [h]
  · split
    · exact ⟨rfl, rfl, rfl⟩
    · exact ⟨rfl, rfl, rfl⟩

lemma async_fields (t : String) (videos order : List Video)
    (resolver : String → Option String × Option FormatInfo)
    (delay : ℚ) (m : Nat) (op : Option String) (gn : String)
    (wr : Except String Nat) (hne : videos ≠ []) :
    (process_playlist_async (.ok (t, videos)) order resolver delay m op gn wr).total_videos
        = videos.length ∧
    (process_playlist_async (.ok (t, videos)) order resolver delay m op gn wr).successful
        = (runLoop (asyncOk resolver m) order).1.length ∧
    (process_playlist_async (.ok (t, videos)) order resolver delay m op gn wr).failed
        = (runLoop (asyncOk resolver m) order).2.length := by
  simp only [process_playlist_async]
  rw [if_neg hne]
  split
  · rename_i h
    simp [h]
  · split
    · exact ⟨rfl, rfl, rfl⟩
    · exact ⟨rfl, rfl, rfl⟩

lemma seq_success_iff (t : String) (videos : List Video)
    (resolver : String → Option String × Option FormatInfo)
    (delay : ℚ) (m : Nat) (op : Option String) (gn : String)
    (wr : Except String Nat) (hne : videos ≠ []) :
    ((process_playlist_seq (.ok (t, videos)) resolver delay m op gn wr).success = true
      ↔ ((runLoop (seqOk resolver delay m) videos).1 ≠ [] ∧ writeSucceeds wr = true)) := by
  cases wr with
  | ok n =>
    simp only [process_playlist_seq]
    rw [if_neg hne]
    split
    · rename_i h
      simp [h, writeSucceeds]
    · rename_i h
      simp [h, writeSucceeds]
  | error e =>
    simp only [process_playlist_seq]
    rw [if_neg hne]
    split
    · rename_i h
      simp [h, writeSucceeds]
    · rename_i h
      simp [h, writeSucceeds]

lemma async_success_iff (t : String) (videos order : List Video)
    (resolver : String → Option String × Option FormatInfo)
    (delay : ℚ) (m : Nat) (op : Option String) (gn : String)
    (wr : Except String Nat) (hne : videos ≠ []) :
    ((process_playlist_async (.ok (t, videos)) order resolver delay m op gn wr).success = true
      ↔ ((runLoop (asyncOk resolver m) order).1 ≠ [] ∧ writeSucceeds wr = true)) := by
  cases wr with
  | ok n =>
    simp only [process_playlist_async]
    rw [if_neg hne]
    split
    · rename_i h
      simp [h, writeSucceeds]
    · rename_i h
      simp [h, writeSucceeds]
  | error e =>
    simp only [process_playlist_async]
    rw [if_neg hne]
    split
    · rename_i h
      simp [h, writeSucceeds]
    · rename_i h
      simp [h, writeSucceeds]

lemma mem_of_mem_dropWhile (p : Char → Bool) :
    ∀ (l : List Char) (c : Char), c ∈ l.dropWhile p → c ∈ l := by
  intro l
  induction l with
  | nil => intro c h; simp [List.dropWhile] at h
  | cons a t ih =>
    intro c h
    rw [List.dropWhile_cons] at h
    by_cases hp : p a = true
    · rw [if_pos hp] at h
      exact List.mem_cons_of_mem a (ih c h)
    · rw [if_neg hp] at h
      exact h

lemma head?_dropWhile (p : Char → Bool) :
    ∀ (l : List Char) (c : Char), (l.dropWhile p).head? = some c →
      p c = false := by
  intro l
  induction l with
  | nil => intro c h; simp [List.dropWhile] at h
  | cons a t ih =>
    intro c h
    rw [List.dropWhile_cons] at h
    by_cases hp : p a = true
    · rw [if_pos hp] at h
      exact ih c h
    · rw [if_neg hp] at h
      simp only [List.head?_cons, Option.some.injEq] at h
      subst h
      cases hb : p a
      · rfl
      · exact absurd hb hp

lemma exists_prepend_dropWhile (p : Char → Bool) :
    ∀ l : List Char, ∃ s : List Char, s ++ l.dropWhile p = l := by
  intro l
  induction l with
  | nil => exact ⟨[], rfl⟩
  | cons a t ih =>
    by_cases hp : p a = true
    · obtain ⟨s, hs⟩ := ih
      refine ⟨a :: s, ?_⟩
      rw [List.dropWhile_cons, if_pos hp]
      simpa using congrArg (fun l => a :: l) hs
    · refine ⟨[], ?_⟩
      rw [List.dropWhile_cons, if_neg hp]
      rfl

lemma head?_append_some (l l2 : List Char) (c : Char) (h : l.head? = some c) :
    (l ++ l2).head? = some c := by
  cases l with
  | nil => simp at h
  | cons a t => simpa using h

lemma head?_take_pos (l : List Char) (n : Nat) (hn : 0 < n) :
    (l.take n).head? = l.head? := by
  cases l with
  | nil => simp
  | cons a t =>
    cases n with
    | zero => omega
    | succ k => simp [List.take_succ_cons]

lemma sanitizeStripped_getLast (cs : List Char) (c : Char)
    (h : (sanitizeStripped cs).getLast? = some c) : stripDotSpace c = false := by
  unfold sanitizeStripped at h
  rw [List.getLast?_reverse] at h
  exact head?_dropWhile _ _ _ h

lemma sanitizeStripped_head (cs : List Char) (c : Char)
    (h : (sanitizeStripped cs).head? = some c) : stripDotSpace c = false := by
  unfold sanitizeStripped at h
  obtain ⟨s, hs⟩ := exists_prepend_dropWhile stripDotSpace
    ((cs.map replaceInvalid).dropWhile stripDotSpace).reverse
  have hd : ((cs.map replaceInvalid).dropWhile stripDotSpace)
      = (((cs.map replaceInvalid).dropWhile stripDotSpace).reverse.dropWhile
          stripDotSpace).reverse ++ s.reverse := by
    have h2 := congrArg List.reverse hs
    simpa [List.reverse_append] using h2.symm
  have hdhead : ((cs.map replaceInvalid).dropWhile stripDotSpace).head? = some c := by
    rw [hd]
    exact head?_append_some _ _ _ h
  exact head?_dropWhile _ _ _ hdhead

lemma sanitizeStripped_subset (cs : List Char) (c : Char)
    (h : c ∈ sanitizeStripped cs) : c ∈ cs.map replaceInvalid := by
  unfold sanitizeStripped at h
  rw [List.mem_reverse] at h
  have h2 := mem_of_mem_dropWhile _ _ _ h
  rw [List.mem_reverse] at h2
  exact mem_of_mem_dropWhile _ _ _ h2

lemma replaceInvalid_not_invalid (a : Char) :
    invalid_chars.contains (replaceInvalid a) = false := by
  unfold replaceInvalid
  by_cases h : invalid_chars.contains a = true
  · rw [if_pos h]
    decide
  · rw [if_neg h]
    cases hb : invalid_chars.contains a
    · rfl
    · exact absurd hb h

/-- Claim C1: for every run of process_playlist on a non-empty fetched list
of N videos that reaches the aggregation phase (fetch succeeded), the
returned report has total_videos = N and successful + failed = N — each
video contributes exactly one terminal outcome — in both the sequential and
the async orchestrator (for any completion order of the futures). -/
theorem aggregate_counts_conserved (t : String) (videos order : List Video)
    (resolver : String → Option String × Option FormatInfo)
    (delay : ℚ) (m : Nat) (op : Option String) (gn : String)
    (wr : Except String Nat) (hne : videos ≠ []) (hperm : order.Perm videos) :
    (process_playlist_seq (.ok (t, videos)) resolver delay m op gn wr).total_videos
        = videos.length ∧
    (process_playlist_seq (.ok (t, videos)) resolver delay m op gn wr).successful
        + (process_playlist_seq (.ok (t, videos)) resolver delay m op gn wr).failed
        = videos.length ∧
    (process_playlist_async (.ok (t, videos)) order resolver delay m op gn wr).total_videos
        = videos.length ∧
    (process_playlist_async (.ok (t, videos)) order resolver delay m op gn wr).successful
        + (process_playlist_async (.ok (t, videos)) order resolver delay m op gn wr).failed
        = videos.length := by
  obtain ⟨hs1, hs2, hs3⟩ := seq_fields t videos resolver delay m op gn wr hne
  obtain ⟨ha1, ha2, ha3⟩ := async_fields t videos order resolver delay m op gn wr hne
  refine ⟨hs1, ?_, ha1, ?_⟩
  · rw [hs2, hs3, runLoop_len]
  · rw [ha2, ha3, runLoop_len, hperm.length_eq]

/-- Witness for C1 at a concrete one-video playlist. -/
theorem aggregate_counts_conserved_witness :
    (process_playlist_seq (.ok (("T"), [⟨("a"), ("A")⟩]))
        (fun _ => ((some ("u")), none)) 1 3 none ("out") (.ok 1)).successful
      + (process_playlist_seq (.ok (("T"), [⟨("a"), ("A")⟩]))
        (fun _ => ((some ("u")), none)) 1 3 none ("out") (.ok 1)).failed = 1 :=
  (aggregate_counts_conserved ("T") [⟨("a"), ("A")⟩] [⟨("a"), ("A")⟩]
    (fun _ => ((some ("u")), none)) 1 3 none ("out") (.ok 1)
    (by decide) (List.Perm.refl _)).2.1

/-- Claim C2 counterexample: the loop's stopping test is Python
truthiness (`if direct_url:`), not a non-None check.  A resolver whose
every call returns the non-None but empty direct URL '' does not stop the
loop: with maxRetries = 2 the resolver is invoked twice even though the
first call already returned a non-None direct URL. -/
theorem retry_stops_on_first_truthy_cex :
    (retryLoop (fun _ => ((some ("")), none)) 0 2).calls = 2 ∧
    ((some ("") : Option String) ≠ none) := by
  decide

/-- Claim C2 (amended): for every maxRetries ≥ 1 the retry loop invokes
the resolver at most maxRetries times; it stops immediately after the
first call whose direct URL is truthy (non-None and non-empty); and if
every attempt is falsy it makes exactly maxRetries calls and ends in a
terminal failure. -/
theorem retry_stops_on_first_truthy
    (res : Nat → Option String × Option FormatInfo) (b : ℚ) (m : Nat)
    (_hm : 1 ≤ m) :
    (retryLoop res b m).calls ≤ m ∧
    (∀ k, k < m → truthy (res k).1 = true →
      (∀ j, j < k → truthy (res j).1 = false) →
      (retryLoop res b m).calls = k + 1 ∧ (retryLoop res b m).result = res k) ∧
    ((∀ j, j < m → truthy (res j).1 = false) →
      (retryLoop res b m).calls = m ∧
        truthy ((retryLoop res b m).result).1 = false) := by
  refine ⟨retryGo_calls_le res b m 0, ?_, ?_⟩
  · intro k hk hsucc hfail
    have h := retryGo_first_success res b m 0 k hk (by simpa using hsucc)
      (fun j hj => by simpa using hfail j hj)
    simpa [retryLoop] using h
  · intro hfail
    have h := retryGo_exhaust res b m 0 (fun j hj => by simpa using hfail j hj)
    simpa [retryLoop] using h

/-- Witness for C2 at a resolver that fails once then succeeds:
exactly 2 of the allowed 3 calls happen. -/
theorem retry_stops_on_first_truthy_witness :
    (retryLoop (fun j => if j = 1 then ((some ("u")), none) else (none, none))
        0 3).calls = 2 :=
  ((retry_stops_on_first_truthy
      (fun j => if j = 1 then ((some ("u")), none) else (none, none)) 0 3
      (by decide)).2.1 1 (by decide) (by decide) (by decide)).1

/-- Claim C3: with a deterministic resolver (a fixed result per video id),
the sequential orchestrator and the bounded orchestrator resolve exactly
the same set of video ids, for any completion order of the async
futures. -/
theorem success_id_sets_agree
    (resolver : String → Option String × Option FormatInfo)
    (delay : ℚ) (m : Nat) (videos order : List Video)
    (hperm : order.Perm videos) :
    (asyncSuccessIds resolver m order).toFinset
      = (seqSuccessIds resolver delay m videos).toFinset := by
  unfold asyncSuccessIds seqSuccessIds
  rw [runLoop_fst, runLoop_fst]
  have hok : asyncOk resolver m = seqOk resolver delay m :=
    funext (fun v => asyncOk_eq_seqOk resolver delay m v)
  rw [hok]
  exact List.toFinset_eq_of_perm _ _ ((hperm.filter _).map _)

/-- Witness for C3 on a two-video playlist completed in reverse order. -/
theorem success_id_sets_agree_witness :
    (asyncSuccessIds
        (fun i => if i = ("a") then ((some ("u")), none) else (none, none))
        2 [⟨("b"), ("B")⟩, ⟨("a"), ("A")⟩]).toFinset
      = (seqSuccessIds
        (fun i => if i = ("a") then ((some ("u")), none) else (none, none))
        (3 / 2) 2 [⟨("a"), ("A")⟩, ⟨("b"), ("B")⟩]).toFinset :=
  success_id_sets_agree
    (fun i => if i = ("a") then ((some ("u")), none) else (none, none))
    (3 / 2) 2 [⟨("a"), ("A")⟩, ⟨("b"), ("B")⟩] [⟨("b"), ("B")⟩, ⟨("a"), ("A")⟩]
    (by decide)

/-- Claim C4 counterexample: the two modes do not share the backoff
formula.  With the default configured delay 3/2 s and an always-failing
resolver, the sequential retry loop sleeps delay * 0.5 = 3/4 s between its
two attempts, while the async retry loop sleeps the constant 0.5 s — not
delay * 0.5. -/
theorem retry_backoff_schedule_cex :
    (seqRetry (fun _ => (none, none)) (3 / 2) 2).sleeps = [3 / 4] ∧
    (asyncRetry (fun _ => (none, none)) 2).sleeps = [1 / 2] ∧
    asyncRetryBackoff ≠ (3 / 2 : ℚ) * (1 / 2) := by
  have h1 : (seqRetry (fun _ => (none, none)) (3 / 2) 2).sleeps
      = [seqRetryBackoff (3 / 2)] := rfl
  have h2 : (asyncRetry (fun _ => (none, none)) 2).sleeps
      = [asyncRetryBackoff] := rfl
  refine ⟨?_, ?_, ?_⟩
  · rw [h1]
    norm_num [seqRetryBackoff]
  · rw [h2]
    norm_num [asyncRetryBackoff]
  · norm_num [asyncRetryBackoff]

/-- Claim C4 (amended): in both modes the retry loop sleeps its backoff
exactly between consecutive attempts and never after the final attempt
(calls - 1 sleeps); the backoff is delay * 0.5 in sequential mode but the
constant 0.5 s in async mode. -/
theorem retry_backoff_schedule
    (res : Nat → Option String × Option FormatInfo) (delay : ℚ) (m : Nat) :
    (seqRetry res delay m).sleeps
        = List.replicate ((seqRetry res delay m).calls - 1)
            (seqRetryBackoff delay) ∧
    (asyncRetry res m).sleeps
        = List.replicate ((asyncRetry res m).calls - 1) asyncRetryBackoff ∧
    seqRetryBackoff delay = delay * (1 / 2) ∧
    asyncRetryBackoff = 1 / 2 := by
  refine ⟨?_, ?_, rfl, rfl⟩
  · exact retryGo_sleeps_replicate res (seqRetryBackoff delay) m 0
  · exact retryGo_sleeps_replicate res asyncRetryBackoff m 0

/-- Claim C5: on an empty fetched video list both orchestrators fail
fast: the resolver is never invoked (0 calls), the run terminates
immediately as a failure, and the empty-input condition is signalled by
the distinguishable message of orchestrator.py line 75. -/
theorem empty_input_fails_fast (t : String)
    (resolver : String → Option String × Option FormatInfo)
    (delay : ℚ) (m : Nat) (op : Option String) (gn : String)
    (wr : Except String Nat) (order : List Video) :
    process_playlist_seq_calls (.ok (t, [])) resolver delay m = 0 ∧
    (process_playlist_seq (.ok (t, [])) resolver delay m op gn wr).success
        = false ∧
    (process_playlist_seq (.ok (t, [])) resolver delay m op gn wr).errors
        = [("No videos found in playlist")] ∧
    process_playlist_async_calls (.ok (t, [])) resolver m = 0 ∧
    (process_playlist_async (.ok (t, [])) order resolver delay m op gn wr).success
        = false ∧
    (process_playlist_async (.ok (t, [])) order resolver delay m op gn wr).errors
        = [("No videos found in playlist")] := by
  refine ⟨rfl, ?_, ?_, rfl, ?_, ?_⟩ <;>
    simp [process_playlist_seq, process_playlist_async]

/-- Claim C6: an exception raised inside the yt-dlp extraction call is
caught, not propagated: get_direct_url returns (none, none) on any error,
that result counts as a failed (falsy) attempt, and a resolver that always
errors exhausts all max_retries attempts before its single terminal
failure. -/
theorem resolver_errors_contained (e : String) (b : ℚ) (m : Nat) :
    get_direct_url (.error e) = (none, none) ∧
    truthy (get_direct_url (.error e)).1 = false ∧
    (retryLoop (fun _ => get_direct_url (.error e)) b m).calls = m ∧
    truthy ((retryLoop (fun _ => get_direct_url (.error e)) b m).result).1
        = false := by
  have hex := retryGo_exhaust (fun _ => get_direct_url (.error e)) b m 0
    (fun j _ => rfl)
  exact ⟨rfl, rfl, hex.1, hex.2⟩

/-- Claim C7: in bounded mode the number of simultaneously in-flight
resolver invocations never exceeds workerCount, in every reachable state
of the worker pool. -/
theorem pool_inflight_bounded {workerCount n : Nat} {s : PoolState}
    (h : PoolReachable workerCount n s) : s.inFlight ≤ workerCount := by
  induction h with
  | init => exact Nat.zero_le _
  | step hr hstep ih =>
    cases hstep with
    | start hp hw => exact hw
    | finish hf =>
      dsimp only
      omega

/-- Witness for C7: the state with one item in flight reached after one
admission in a pool of 2 workers over 3 items. -/
theorem pool_inflight_bounded_witness :
    (PoolState.mk 2 1 0).inFlight ≤ 2 :=
  pool_inflight_bounded (PoolReachable.step PoolReachable.init
    (PoolStep.start ⟨3, 0, 0⟩ (by decide) (by decide)))

/-- Claim C8 counterexample: a run whose single video resolves
successfully but whose output write fails ends with successful = 1 > 0 yet
success = false, so success is not equivalent to successes > 0. -/
theorem run_success_flag_cex :
    (process_playlist_seq (.ok (("T"), [⟨("a"), ("A")⟩]))
        (fun _ => ((some ("u")), none)) 1 3 none ("out")
        (.error ("disk"))).successful = 1 ∧
    (process_playlist_seq (.ok (("T"), [⟨("a"), ("A")⟩]))
        (fun _ => ((some ("u")), none)) 1 3 none ("out")
        (.error ("disk"))).success = false := by
  decide

/-- Claim C8 (amended): for every completed run on a non-empty input, the
report's success flag is true iff at least one item resolved successfully
AND the output write succeeded; per-item failures alone never make the run
unsuccessful.  Holds for both orchestrators. -/
theorem run_success_flag (t : String) (videos order : List Video)
    (resolver : String → Option String × Option FormatInfo)
    (delay : ℚ) (m : Nat) (op : Option String) (gn : String)
    (wr : Except String Nat) (hne : videos ≠ []) :
    ((process_playlist_seq (.ok (t, videos)) resolver delay m op gn wr).success
        = true
      ↔ (0 < (process_playlist_seq (.ok (t, videos)) resolver delay m op gn wr).successful
          ∧ writeSucceeds wr = true)) ∧
    ((process_playlist_async (.ok (t, videos)) order resolver delay m op gn wr).success
        = true
      ↔ (0 < (process_playlist_async (.ok (t, videos)) order resolver delay m op gn wr).successful
          ∧ writeSucceeds wr = true)) := by
  obtain ⟨_, hs2, _⟩ := seq_fields t videos resolver delay m op gn wr hne
  obtain ⟨_, ha2, _⟩ := async_fields t videos order resolver delay m op gn wr hne
  constructor
  · rw [seq_success_iff t videos resolver delay m op gn wr hne, hs2,
      List.length_pos]
  · rw [async_success_iff t videos order resolver delay m op gn wr hne, ha2,
      List.length_pos]

/-- Witness for C8 at a concrete run whose write succeeds. -/
theorem run_success_flag_witness :
    (process_playlist_seq (.ok (("T"), [⟨("a"), ("A")⟩]))
        (fun _ => ((some ("u")), none)) 1 3 none ("out") (.ok 1)).success
      = true :=
  ((run_success_flag ("T") [⟨("a"), ("A")⟩] [⟨("a"), ("A")⟩]
      (fun _ => ((some ("u")), none)) 1 3 none ("out") (.ok 1)
      (by decide)).1).mpr ⟨by decide, rfl⟩

/-- Claim C9: a requested worker count below 1 is rejected (the run does
not start), a value above 20 is silently clamped to 20, and every
accepted effective worker count lies in [1, 20]. -/
theorem worker_count_validation (w : Int) :
    (w < 1 → validate_workers w = none) ∧
    (20 < w → validate_workers w = some 20) ∧
    (∀ v, validate_workers w = some v → 1 ≤ v ∧ v ≤ 20) := by
  refine ⟨?_, ?_, ?_⟩
  · intro h
    simp [validate_workers, h]
  · intro h
    have h1 : ¬ w < 1 := by omega
    simp [validate_workers, h1, h]
  · intro v hv
    unfold validate_workers at hv
    by_cases h1 : w < 1
    · simp [h1] at hv
    · by_cases h2 : 20 < w
      · rw [if_neg h1, if_pos h2] at hv
        injection hv with hv'
        omega
      · rw [if_neg h1, if_neg h2] at hv
        injection hv with hv'
        omega

/-- Witness for C9: 25 workers are clamped to 20. -/
theorem worker_count_validation_witness : validate_workers 25 = some 20 :=
  (worker_count_validation 25).2.1 (by decide)

/-- Claim C10 counterexample: the 200-character truncation happens after
the strip of leading/trailing dots and spaces, so it can reintroduce a
trailing dot: on 199 'a's, then '.', then 'a' (201 characters, stripped
form unchanged) the result ends in '.'. -/
theorem sanitize_filename_spec_cex :
    (sanitize_filename (List.replicate 199 'a' ++ ['.', 'a'])).getLast?
      = some '.' := by
  decide

/-- Claim C10 (amended): the sanitized filename contains none of the
invalid characters, has length at most 200, is never empty, and never
starts with a space or dot; it also never ends with a space or dot
provided the stripped name did not exceed the 200-character truncation
limit (truncation can cut the name right after a dot or space). -/
theorem sanitize_filename_spec (cs : List Char) :
    (∀ c, c ∈ sanitize_filename cs → invalid_chars.contains c = false) ∧
    (sanitize_filename cs).length ≤ 200 ∧
    sanitize_filename cs ≠ [] ∧
    (∀ c, (sanitize_filename cs).head? = some c → stripDotSpace c = false) ∧
    ((sanitizeStripped cs).length ≤ 200 →
      ∀ c, (sanitize_filename cs).getLast? = some c →
        stripDotSpace c = false) := by
  by_cases hfall : sanitizeLimited cs = []
  · have hr : sanitize_filename cs = ("output").toList := by
      simp [sanitize_filename, hfall]
    refine ⟨?_, ?_, ?_, ?_, ?_⟩
    · rw [hr]
      decide
    · rw [hr]
      decide
    · rw [hr]
      decide
    · intro c hc
      rw [hr] at hc
      have he : ((("output").toList).head?) = some 'o' := by decide
      have h2 := he.symm.trans hc
      injection h2 with h3
      rw [← h3]
      decide
    · intro _ c hc
      rw [hr] at hc
      have he : ((("output").toList).getLast?) = some 't' := by decide
      have h2 := he.symm.trans hc
      injection h2 with h3
      rw [← h3]
      decide
  · have hr : sanitize_filename cs = sanitizeLimited cs := by
      simp [sanitize_filename, hfall]
    refine ⟨?_, ?_, ?_, ?_, ?_⟩
    · intro c hc
      rw [hr] at hc
      have hcs : c ∈ sanitizeStripped cs := by
        unfold sanitizeLimited at hc
        by_cases hlen : 200 < (sanitizeStripped cs).length
        · rw [if_pos hlen] at hc
          exact List.take_subset _ _ hc
        · rw [if_neg hlen] at hc
          exact hc
      obtain ⟨a, _, ha⟩ := List.mem_map.mp (sanitizeStripped_subset cs c hcs)
      rw [← ha]
      exact replaceInvalid_not_invalid a
    · rw [hr]
      unfold sanitizeLimited
      by_cases hlen : 200 < (sanitizeStripped cs).length
      · rw [if_pos hlen]
        simp [List.length_take]
      · rw [if_neg hlen]
        omega
    · rw [hr]
      exact hfall
    · intro c hc
      rw [hr] at hc
      unfold sanitizeLimited at hc
      by_cases hlen : 200 < (sanitizeStripped cs).length
      · rw [if_pos hlen, head?_take_pos _ _ (by omega)] at hc
        exact sanitizeStripped_head cs c hc
      · rw [if_neg hlen] at hc
        exact sanitizeStripped_head cs c hc
    · intro hstr c hc
      rw [hr] at hc
      unfold sanitizeLimited at hc
      rw [if_neg (by omega)] at hc
      exact sanitizeStripped_getLast cs c hc

/-- Witness for C10 at the input ' a.' (stripped well under the limit). -/
theorem sanitize_filename_spec_witness : stripDotSpace 'a' = false :=
  (sanitize_filename_spec ((" a.").toList)).2.2.2.2 (by decide) 'a' (by decide)

end PlaylistGrabber
